import Mathlib

/-!
# Verification of the topic-based publish-subscribe agent runtime

This development embeds the data model and operations of the autogen core
runtime (identity model, subscription registry, agent directory,
mailbox/scheduler, runtime facade) together with the four-stage sequential
workflow built on top of it, and proves the spec's claims about them.

The runtime implementation itself (`SingleThreadedAgentRuntime`) is not part
of the visible sources; only the sequential-workflow notebook that drives it
is.  Definitions for the runtime are therefore modelled from the spec
(sections 3, 4 and 5), as marked in their doc comments; the four pipeline
agents and their handlers are translated from the notebook code.
-/

/-- Identity of one agent instance: agent type plus instance key.  Two `AgentId`s are equal iff
both fields match (spec section 3). -/
structure AgentId where
  type : String
  key : String
deriving DecidableEq, Repr

/-- Identity of a logical channel: topic type plus source string (spec section 3). -/
structure TopicId where
  type : String
  source : String
deriving DecidableEq, Repr

/-- A subscription binds a topic type to an agent type, with the default
key-derivation rule (topic source becomes agent key verbatim)
(spec sections 3 and 4.1). -/
structure TypeSubscription where
  topicType : String
  agentType : String
deriving DecidableEq, Repr

/-- Modelled from the spec: `resolve(topicId)` of the Subscription Registry
(section 4.1).  Returns every subscription whose `topicType` matches
`topicId.type` by exact string equality, each paired with the agent key
obtained from the default key rule, i.e. `topicId.source` verbatim. -/
def resolve (subs : List TypeSubscription) (t : TopicId) : List AgentId :=
  (subs.filter (fun s => s.topicType == t.type)).map
    (fun s => { type := s.agentType, key := t.source })

/-- Modelled from the spec: runtime configuration — the registered
subscriptions (section 4.1) and the handler behaviour bound to each agent
(sections 4.3 and 6: a handler consumes a message and either publishes a
list of follow-up messages as a side effect, or fails, in which case the
envelope is dropped). -/
structure RtConfig (Msg : Type) where
  subs : List TypeSubscription
  handler : AgentId → Msg → Except String (List (Msg × TopicId))

/-- Modelled from the spec: the observable state of the runtime
(sections 3, 4.2 and 4.3): the directory of live instances in creation
order, a log of factory invocations, the per-instance FIFO mailboxes, the
log of handler invocations in execution order, the log of failed envelopes,
and the log of all enqueue events in order. -/
structure RtState (Msg : Type) where
  instances : List AgentId
  factoryLog : List AgentId
  mbox : AgentId → List Msg
  invoked : List (AgentId × Msg)
  failedLog : List (AgentId × Msg)
  enqueued : List (AgentId × Msg)

/-- The runtime state at startup: no instances, no pending work. -/
def RtState.start (Msg : Type) : RtState Msg :=
  { instances := []
    factoryLog := []
    mbox := fun _ => []
    invoked := []
    failedLog := []
    enqueued := [] }

/-- Modelled from the spec: `getOrCreate` of the Agent Directory
(section 4.2).  If an instance for the id already exists it is returned as
is; otherwise the factory is invoked once and the instance is stored. -/
def getOrCreate {Msg : Type} (st : RtState Msg) (a : AgentId) : RtState Msg :=
  if a ∈ st.instances then st
  else { st with instances := st.instances ++ [a]
                 factoryLog := st.factoryLog ++ [a] }

/-- Modelled from the spec: enqueue one envelope onto an agent instance's
mailbox (section 4.3, publish algorithm step 2). -/
def enqueue {Msg : Type} (st : RtState Msg) (a : AgentId) (m : Msg) : RtState Msg :=
  { st with mbox := fun b => if b = a then st.mbox a ++ [m] else st.mbox b
            enqueued := st.enqueued ++ [(a, m)] }

/-- Resolve-or-create the instance and enqueue the envelope. -/
def deliverTo {Msg : Type} (st : RtState Msg) (a : AgentId) (m : Msg) : RtState Msg :=
  enqueue (getOrCreate st a) a m

/-- Modelled from the spec: the publish algorithm (section 4.3): resolve the
topic, then for each `(agentType, key)` pair get-or-create the instance and
enqueue the envelope; fire-and-forget, no waiting for processing. -/
def publish {Msg : Type} (cfg : RtConfig Msg) (st : RtState Msg) (m : Msg)
    (t : TopicId) : RtState Msg :=
  (resolve cfg.subs t).foldl (fun s a => deliverTo s a m) st

/-- Modelled from the spec: one iteration of the scheduler loop
(section 4.3): select a ready agent (an instance with a non-empty mailbox),
pop the oldest envelope, invoke its handler to completion; on success apply
the handler's publishes, on failure drop the envelope and record it.
Returns `none` when no agent is ready (the runtime is idle). -/
def step {Msg : Type} (cfg : RtConfig Msg) (st : RtState Msg) :
    Option (RtState Msg) :=
  match st.instances.find? (fun b => !(st.mbox b).isEmpty) with
  | none => none
  | some a =>
    match st.mbox a with
    | [] => none
    | m :: rest =>
      let st1 : RtState Msg :=
        { st with mbox := fun b => if b = a then rest else st.mbox b
                  invoked := st.invoked ++ [(a, m)] }
      match cfg.handler a m with
      | Except.ok pubs =>
          some (pubs.foldl (fun s p => publish cfg s p.1 p.2) st1)
      | Except.error _ =>
          some { st1 with failedLog := st1.failedLog ++ [(a, m)] }

/-- Modelled from the spec: the scheduler loop run up to `n` iterations,
stopping early when idle (sections 4.3 and 4.4, `stop_when_idle`). -/
def run {Msg : Type} (cfg : RtConfig Msg) : Nat → RtState Msg → RtState Msg
  | 0, st => st
  | n + 1, st =>
    match step cfg st with
    | none => st
    | some st' => run cfg n st'

/-- The state after a sequence of external publishes from startup. -/
def afterPublishes {Msg : Type} (cfg : RtConfig Msg)
    (pubs : List (Msg × TopicId)) : RtState Msg :=
  pubs.foldl (fun s p => publish cfg s p.1 p.2) (RtState.start Msg)

/-- The messages addressed to agent `a` in an event log, in log order. -/
def logAt {Msg : Type} (a : AgentId) (l : List (AgentId × Msg)) : List Msg :=
  (l.filter (fun p => p.1 == a)).map Prod.snd

/-- The sequence of messages enqueued to agent `a`, in enqueue order. -/
def enqAt {Msg : Type} (a : AgentId) (st : RtState Msg) : List Msg :=
  logAt a st.enqueued

/-- The sequence of messages whose handler was invoked on agent `a`, in
invocation order. -/
def invAt {Msg : Type} (a : AgentId) (st : RtState Msg) : List Msg :=
  logAt a st.invoked

/-- FIFO invariant: for every agent, the full enqueue history is exactly the
invocation history followed by the still-pending mailbox contents. -/
def FifoInv {Msg : Type} (st : RtState Msg) : Prop :=
  ∀ a : AgentId, enqAt a st = invAt a st ++ st.mbox a

/-- Directory invariant: the factory was invoked exactly once per created
instance, and no `AgentId` has two instances. -/
def DirInv {Msg : Type} (st : RtState Msg) : Prop :=
  st.factoryLog = st.instances ∧ st.instances.Nodup

/-- Modelled from the spec: the registration-time state of the Runtime
Facade (sections 4.1 and 4.4): the set of registered agent types and the
subscription registry, both append-only for the run's duration. -/
structure Registry where
  agentTypes : List String
  subs : List TypeSubscription
deriving DecidableEq, Repr

/-- Modelled from the spec: `register(topicType, agentType, keyRule)` of the
Subscription Registry (section 4.1): adds a binding; fails with
`DuplicateSubscriptionError` if an identical `(topicType, agentType)` pair
is already registered (idempotent registration is rejected, not silently
merged). -/
def registerSubscription (r : Registry) (s : TypeSubscription) :
    Except String Registry :=
  if s ∈ r.subs then Except.error "DuplicateSubscriptionError"
  else Except.ok { r with subs := r.subs ++ [s] }

/-- Modelled from the spec: `register(agentType, factory,
topicTypeSubscriptions)` of the Runtime Facade (section 4.4): binds a
factory to an agent type and records its subscriptions in the registry;
fails if the agent type is already registered. -/
def registerAgentType (r : Registry) (agentType : String)
    (topicTypes : List String) : Except String Registry :=
  if agentType ∈ r.agentTypes then Except.error "DuplicateRegistrationError"
  else Except.ok
    { agentTypes := r.agentTypes ++ [agentType]
      subs := r.subs ++
        topicTypes.map (fun tt => TypeSubscription.mk tt agentType) }

/-- Content of the result returned by the chat-completion client: the
notebook's handlers `assert isinstance(response, str)`, so the only
distinction the workflow makes is between string content and any other
content shape. -/
inductive LLMContent where
  | str (s : String)
  | other
deriving DecidableEq, Repr

/-- Topic type of the concept extractor (notebook cell defining the topic
types). -/
def concept_extractor_topic_type : String := "ConceptExtractorAgent"

/-- Topic type of the writer agent. -/
def writer_topic_type : String := "WriterAgent"

/-- Topic type of the format-and-proof agent. -/
def format_proof_topic_type : String := "FormatProofAgent"

/-- Topic type of the user agent. -/
def user_topic_type : String := "User"

/-- Prompt built by `ConceptExtractorAgent.handle_user_description`. -/
def conceptExtractorPrompt (content : String) : String :=
  "Product description: " ++ content

/-- Prompt built by `WriterAgent.handle_intermediate_text`. -/
def writerPrompt (content : String) : String :=
  "Below is the info about the product:\n\n" ++ content

/-- Prompt built by `FormatProofAgent.handle_intermediate_text`. -/
def formatProofPrompt (content : String) : String :=
  "Draft copy:\n" ++ content ++ "."

/-- Translated from the notebook's four agent handlers, parametric in the
four topic-type names and in the chat-completion clients of the three
model-calling agents (`create` is modelled as a function from the user
prompt to the returned content; the runtime treats the call as an opaque
operation).  Each model-calling handler builds its prompt from the incoming
message content, asserts the returned content is a string, and publishes
the response to the next stage's topic with `source` set to its own
`id.key`; a non-string content fails the assertion and the handler raises.
The user agent only prints the final copy and publishes nothing. -/
def pipelineHandler (t1 t2 t3 t4 : String) (c1 c2 c3 : String → LLMContent)
    (a : AgentId) (m : String) : Except String (List (String × TopicId)) :=
  if a.type = t1 then
    match c1 (conceptExtractorPrompt m) with
    | LLMContent.str s => Except.ok [(s, TopicId.mk t2 a.key)]
    | LLMContent.other => Except.error "AssertionError"
  else if a.type = t2 then
    match c2 (writerPrompt m) with
    | LLMContent.str s => Except.ok [(s, TopicId.mk t3 a.key)]
    | LLMContent.other => Except.error "AssertionError"
  else if a.type = t3 then
    match c3 (formatProofPrompt m) with
    | LLMContent.str s => Except.ok [(s, TopicId.mk t4 a.key)]
    | LLMContent.other => Except.error "AssertionError"
  else if a.type = t4 then Except.ok []
  else Except.error "UnhandledMessageError"

/-- The runtime configuration of the sequential workflow: each of the four
agent types is registered under its topic type with an agent type equal to
that topic type, exactly as in the notebook's registration cell
(`register(runtime, type=<topic type>, factory=...)` under a
`type_subscription` decorator). -/
def pipelineConfig (t1 t2 t3 t4 : String) (c1 c2 c3 : String → LLMContent) :
    RtConfig String :=
  { subs := [TypeSubscription.mk t1 t1, TypeSubscription.mk t2 t2,
             TypeSubscription.mk t3 t3, TypeSubscription.mk t4 t4]
    handler := pipelineHandler t1 t2 t3 t4 c1 c2 c3 }

/-- The four-stage workflow with the spec's schematic stage names and
always-string stage outputs `g1`, `g2`, `g3`. -/
def stageCfg (g1 g2 g3 : String → String) : RtConfig String :=
  pipelineConfig "Stage1" "Stage2" "Stage3" "User"
    (fun p => LLMContent.str (g1 p)) (fun p => LLMContent.str (g2 p))
    (fun p => LLMContent.str (g3 p))

/-- The state reached by publishing `"desc"` to `(type="Stage1",
source="default")` and running the scheduler to quiescence. -/
def stageRun (g1 g2 g3 : String → String) : RtState String :=
  run (stageCfg g1 g2 g3) 5
    (publish (stageCfg g1 g2 g3) (RtState.start String) "desc"
      (TopicId.mk "Stage1" "default"))

/-- The notebook's workflow configuration over abstract chat-completion
clients. -/
def nbClientCfg (c1 c2 c3 : String → LLMContent) : RtConfig String :=
  pipelineConfig concept_extractor_topic_type writer_topic_type
    format_proof_topic_type user_topic_type c1 c2 c3

/-- The notebook's workflow configuration when every model call returns
string content, given by `g1`, `g2`, `g3`. -/
def nbCfg (g1 g2 g3 : String → String) : RtConfig String :=
  nbClientCfg (fun p => LLMContent.str (g1 p)) (fun p => LLMContent.str (g2 p))
    (fun p => LLMContent.str (g3 p))

/-- The state reached by the notebook's run cell: publish the product
description to `(type=concept_extractor_topic_type, source="default")`,
then run the scheduler to quiescence. -/
def nbRun (g1 g2 g3 : String → String) (m : String) : RtState String :=
  run (nbCfg g1 g2 g3) 5
    (publish (nbCfg g1 g2 g3) (RtState.start String) m
      (TopicId.mk concept_extractor_topic_type "default"))

/-- Modelled from the spec: the scheduler state with explicit suspension
points (sections 4.3 and 5): the directory of live instances, the
per-instance mailboxes, the handler invocations currently in flight
(suspended awaiting external completion), the log of completed handler
invocations in completion order, and the log of all enqueue events. -/
structure SchedState (Msg : Type) where
  instances : List AgentId
  mbox : AgentId → List Msg
  inflight : List (AgentId × Msg)
  completedLog : List (AgentId × Msg)
  enqueued : List (AgentId × Msg)

/-- The suspension-aware scheduler state at startup. -/
def SchedState.startState (Msg : Type) : SchedState Msg :=
  { instances := []
    mbox := fun _ => []
    inflight := []
    completedLog := []
    enqueued := [] }

/-- Directory get-or-create on the suspension-aware state (spec section 4.2). -/
def getOrCreateS {Msg : Type} (st : SchedState Msg) (a : AgentId) :
    SchedState Msg :=
  if a ∈ st.instances then st
  else { st with instances := st.instances ++ [a] }

/-- Enqueue one envelope on the suspension-aware state. -/
def enqueueS {Msg : Type} (st : SchedState Msg) (a : AgentId) (m : Msg) :
    SchedState Msg :=
  { st with mbox := fun b => if b = a then st.mbox a ++ [m] else st.mbox b
            enqueued := st.enqueued ++ [(a, m)] }

/-- Modelled from the spec: the publish algorithm (section 4.3) on the
suspension-aware state. -/
def publishS {Msg : Type} (cfg : RtConfig Msg) (st : SchedState Msg)
    (m : Msg) (t : TopicId) : SchedState Msg :=
  (resolve cfg.subs t).foldl (fun s a => enqueueS (getOrCreateS s a) a m) st

/-- Apply the result of a completed handler invocation: on success each
published follow-up is resolved and enqueued; on failure the envelope is
dropped (spec section 7, `HandlerError`). -/
def applyResult {Msg : Type} (cfg : RtConfig Msg) (st : SchedState Msg)
    (a : AgentId) (m : Msg) : SchedState Msg :=
  match cfg.handler a m with
  | Except.ok pubs => pubs.foldl (fun s p => publishS cfg s p.1 p.2) st
  | Except.error _ => st

/-- Modelled from the spec: one transition of the cooperative scheduler
with suspension points (sections 4.3 and 5).  `start` pops the oldest
envelope of a ready agent that has no in-flight handler and suspends its
handler at its await point; `finish` resumes any suspended handler to
completion, applying its publishes and recording the completion.  During a
suspension the scheduler is free to `start` other agents' envelopes. -/
inductive SchedStep {Msg : Type} (cfg : RtConfig Msg) :
    SchedState Msg → SchedState Msg → Prop where
  | start (st : SchedState Msg) (a : AgentId) (m : Msg) (rest : List Msg)
      (hm : st.mbox a = m :: rest)
      (hfree : a ∉ st.inflight.map Prod.fst) :
      SchedStep cfg st
        { st with mbox := fun b => if b = a then rest else st.mbox b
                  inflight := st.inflight ++ [(a, m)] }
  | finish (st : SchedState Msg) (pre post : List (AgentId × Msg))
      (a : AgentId) (m : Msg) (hin : st.inflight = pre ++ (a, m) :: post) :
      SchedStep cfg st
        (applyResult cfg
          { st with inflight := pre ++ post
                    completedLog := st.completedLog ++ [(a, m)] } a m)

/-- The suspension-aware state after a sequence of external publishes from
startup. -/
def afterPublishesS {Msg : Type} (cfg : RtConfig Msg)
    (pubs : List (Msg × TopicId)) : SchedState Msg :=
  pubs.foldl (fun s p => publishS cfg s p.1 p.2) (SchedState.startState Msg)

/-- Modelled from the spec: idle detection (section 4.3): the runtime is
idle when every mailbox is empty and no handler invocation is suspended
awaiting external completion; `stop_when_idle` blocks the caller until this
condition holds and halts the scheduler loop, so it returns only in a state
satisfying this predicate. -/
def SchedIdle {Msg : Type} (st : SchedState Msg) : Prop :=
  (∀ a, st.mbox a = []) ∧ st.inflight = []

/-- Combined scheduler invariant: no `AgentId` has two in-flight handler
invocations, and for every agent the enqueue history is the completed
history, then the in-flight envelope, then the pending mailbox. -/
def SchedGood {Msg : Type} (st : SchedState Msg) : Prop :=
  (st.inflight.map Prod.fst).Nodup ∧
    ∀ a, logAt a st.enqueued =
      logAt a st.completedLog ++ logAt a st.inflight ++ st.mbox a

/-- A two-agent demonstration configuration: agent type `"A"` republishes
every message it handles to topic `"B"` with its own key (a handler that
publishes a follow-up); agent type `"B"` consumes silently. -/
def demoCfg : RtConfig String :=
  { subs := [TypeSubscription.mk "A" "A", TypeSubscription.mk "B" "B"]
    handler := fun a m =>
      if a.type = "A" then Except.ok [(m, TopicId.mk "B" a.key)]
      else Except.ok [] }

/-- The initial external publish of the demonstration scenario. -/
def demoPubs : List (String × TopicId) := [("m1", TopicId.mk "A" "s")]

/-- Demonstration state after the scheduler starts the handler of agent
`("A,"s")` on `"m1"` (the invocation is suspended, in flight). -/
def demoSt1 : SchedState String :=
  { instances := [AgentId.mk "A" "s"]
    mbox := fun b => if b = AgentId.mk "A" "s" then []
      else if b = AgentId.mk "A" "s" then ["m1"] else []
    inflight := [(AgentId.mk "A" "s", "m1")]
    completedLog := []
    enqueued := [(AgentId.mk "A" "s", "m1")] }

/-- Demonstration state after that handler completes, publishing the
follow-up `"m1"` to topic `("B","s")`. -/
def demoSt2 : SchedState String :=
  { instances := [AgentId.mk "A" "s", AgentId.mk "B" "s"]
    mbox := fun b => if b = AgentId.mk "B" "s" then ["m1"]
      else if b = AgentId.mk "A" "s" then []
      else if b = AgentId.mk "A" "s" then ["m1"] else []
    inflight := []
    completedLog := [(AgentId.mk "A" "s", "m1")]
    enqueued := [(AgentId.mk "A" "s", "m1"), (AgentId.mk "B" "s", "m1")] }

/-- Demonstration state after the scheduler starts the handler of agent
`("B","s")` on the follow-up. -/
def demoSt3 : SchedState String :=
  { instances := [AgentId.mk "A" "s", AgentId.mk "B" "s"]
    mbox := fun b => if b = AgentId.mk "B" "s" then []
      else if b = AgentId.mk "B" "s" then ["m1"]
      else if b = AgentId.mk "A" "s" then []
      else if b = AgentId.mk "A" "s" then ["m1"] else []
    inflight := [(AgentId.mk "B" "s", "m1")]
    completedLog := [(AgentId.mk "A" "s", "m1")]
    enqueued := [(AgentId.mk "A" "s", "m1"), (AgentId.mk "B" "s", "m1")] }

/-- Demonstration state after the follow-up's handler also completes: the
runtime is idle. -/
def demoSt4 : SchedState String :=
  { instances := [AgentId.mk "A" "s", AgentId.mk "B" "s"]
    mbox := fun b => if b = AgentId.mk "B" "s" then []
      else if b = AgentId.mk "B" "s" then ["m1"]
      else if b = AgentId.mk "A" "s" then []
      else if b = AgentId.mk "A" "s" then ["m1"] else []
    inflight := []
    completedLog := [(AgentId.mk "A" "s", "m1"), (AgentId.mk "B" "s", "m1")]
    enqueued := [(AgentId.mk "A" "s", "m1"), (AgentId.mk "B" "s", "m1")] }

theorem logAt_append {Msg : Type} (a : AgentId) (l1 l2 : List (AgentId × Msg)) :
    logAt a (l1 ++ l2) = logAt a l1 ++ logAt a l2 := by
  simp [logAt, List.filter_append]

theorem logAt_single_self {Msg : Type} (a : AgentId) (m : Msg) :
    logAt a [(a, m)] = [m] := by
  simp [logAt]

theorem logAt_single_other {Msg : Type} {a b : AgentId} (m : Msg)
    (h : b ≠ a) : logAt b [(a, m)] = [] := by
  simp [logAt, Ne.symm h]

theorem fifoInv_start (Msg : Type) : FifoInv (RtState.start Msg) := by
  intro a
  simp [enqAt, invAt, logAt, RtState.start]

theorem dirInv_start (Msg : Type) : DirInv (RtState.start Msg) := by
  constructor <;> simp [RtState.start]

theorem fifoInv_getOrCreate {Msg : Type} {st : RtState Msg} (a : AgentId)
    (h : FifoInv st) : FifoInv (getOrCreate st a) := by
  intro b
  unfold getOrCreate
  split <;> exact h b

theorem fifoInv_enqueue {Msg : Type} {st : RtState Msg} (a : AgentId)
    (m : Msg) (h : FifoInv st) : FifoInv (enqueue st a m) := by
  intro b
  have hb := h b
  by_cases hba : b = a
  · subst hba
    simp only [enqueue, enqAt, invAt] at hb ⊢
    rw [logAt_append, logAt_single_self, hb]
    simp
  · simp only [enqueue, enqAt, invAt] at hb ⊢
    rw [logAt_append, logAt_single_other m hba]
    simp [hba, hb]

theorem fifoInv_deliverTo {Msg : Type} {st : RtState Msg} (a : AgentId)
    (m : Msg) (h : FifoInv st) : FifoInv (deliverTo st a m) :=
  fifoInv_enqueue a m (fifoInv_getOrCreate a h)

theorem fifoInv_publish {Msg : Type} (cfg : RtConfig Msg) {st : RtState Msg}
    (m : Msg) (t : TopicId) (h : FifoInv st) : FifoInv (publish cfg st m t) := by
  unfold publish
  induction resolve cfg.subs t generalizing st with
  | nil => exact h
  | cons a as ih => exact ih (fifoInv_deliverTo a m h)

theorem dirInv_deliverTo {Msg : Type} {st : RtState Msg} (a : AgentId)
    (m : Msg) (h : DirInv st) : DirInv (deliverTo st a m) := by
  obtain ⟨h1, h2⟩ := h
  unfold deliverTo getOrCreate
  by_cases hmem : a ∈ st.instances
  · simp only [hmem, if_true]
    exact ⟨by simp [enqueue, h1], by simp [enqueue, h2]⟩
  · simp only [hmem, if_false]
    refine ⟨by simp [enqueue, h1], ?_⟩
    simp [enqueue, List.nodup_append, h2, hmem]

theorem dirInv_publish {Msg : Type} (cfg : RtConfig Msg) {st : RtState Msg}
    (m : Msg) (t : TopicId) (h : DirInv st) : DirInv (publish cfg st m t) := by
  unfold publish
  induction resolve cfg.subs t generalizing st with
  | nil => exact h
  | cons a as ih => exact ih (dirInv_deliverTo a m h)

theorem fifoInv_pubs {Msg : Type} (cfg : RtConfig Msg)
    (pubs : List (Msg × TopicId)) {st : RtState Msg} (h : FifoInv st) :
    FifoInv (pubs.foldl (fun s p => publish cfg s p.1 p.2) st) := by
  induction pubs generalizing st with
  | nil => exact h
  | cons p ps ih => exact ih (fifoInv_publish cfg p.1 p.2 h)

theorem dirInv_pubs {Msg : Type} (cfg : RtConfig Msg)
    (pubs : List (Msg × TopicId)) {st : RtState Msg} (h : DirInv st) :
    DirInv (pubs.foldl (fun s p => publish cfg s p.1 p.2) st) := by
  induction pubs generalizing st with
  | nil => exact h
  | cons p ps ih => exact ih (dirInv_publish cfg p.1 p.2 h)

/-- Popping the oldest envelope of a ready agent and recording its
invocation preserves the FIFO invariant. -/
theorem fifoInv_pop {Msg : Type} {st : RtState Msg} {a : AgentId} {m : Msg}
    {rest : List Msg} (hm : st.mbox a = m :: rest) (h : FifoInv st) :
    FifoInv { st with mbox := fun b => if b = a then rest else st.mbox b
                      invoked := st.invoked ++ [(a, m)] } := by
  intro b
  have hb := h b
  by_cases hba : b = a
  · subst hba
    rw [hm] at hb
    simp only [enqAt, invAt] at hb ⊢
    rw [logAt_append, logAt_single_self, hb]
    simp
  · simp only [enqAt, invAt] at hb ⊢
    rw [logAt_append, logAt_single_other m hba]
    simp [hba, hb]

theorem fifoInv_step {Msg : Type} (cfg : RtConfig Msg) {st st' : RtState Msg}
    (hs : step cfg st = some st') (h : FifoInv st) : FifoInv st' := by
  unfold step at hs
  split at hs
  · exact absurd hs (by simp)
  · next a hfind =>
    split at hs
    · exact absurd hs (by simp)
    · next m rest hm =>
      split at hs
      · next pubs hok =>
        cases hs
        exact fifoInv_pubs cfg pubs (fifoInv_pop hm h)
      · next e herr =>
        cases hs
        exact fun b => fifoInv_pop hm h b

theorem dirInv_step {Msg : Type} (cfg : RtConfig Msg) {st st' : RtState Msg}
    (hs : step cfg st = some st') (h : DirInv st) : DirInv st' := by
  unfold step at hs
  split at hs
  · exact absurd hs (by simp)
  · next a hfind =>
    split at hs
    · exact absurd hs (by simp)
    · next m rest hm =>
      have h1 : DirInv { st with
          mbox := fun b => if b = a then rest else st.mbox b
          invoked := st.invoked ++ [(a, m)] } := h
      split at hs
      · next pubs hok =>
        cases hs
        exact dirInv_pubs cfg pubs h1
      · next e herr =>
        cases hs
        exact h1

theorem fifoInv_run {Msg : Type} (cfg : RtConfig Msg) (n : Nat)
    {st : RtState Msg} (h : FifoInv st) : FifoInv (run cfg n st) := by
  induction n generalizing st with
  | zero => exact h
  | succ k ih =>
    unfold run
    split
    · exact h
    · next st' hs => exact ih (fifoInv_step cfg hs h)

theorem dirInv_run {Msg : Type} (cfg : RtConfig Msg) (n : Nat)
    {st : RtState Msg} (h : DirInv st) : DirInv (run cfg n st) := by
  induction n generalizing st with
  | zero => exact h
  | succ k ih =>
    unfold run
    split
    · exact h
    · next st' hs => exact ih (dirInv_step cfg hs h)

/-- C3: for every single `AgentId` and every sequence of messages published
to topics that agent instance is subscribed to, the handler invocations on
that instance occur in exactly the order the envelopes were enqueued into
its mailbox, with no reordering and no priority: at every point of any run,
the enqueue history of an agent is its invocation history followed by its
still-pending mailbox, so invocations are always a prefix of the enqueue
order. -/
theorem ordering_per_agent_fifo (Msg : Type) (cfg : RtConfig Msg)
    (pubs : List (Msg × TopicId)) (n : Nat) (a : AgentId) :
    enqAt a (run cfg n (afterPublishes cfg pubs)) =
      invAt a (run cfg n (afterPublishes cfg pubs)) ++
        (run cfg n (afterPublishes cfg pubs)).mbox a :=
  fifoInv_run cfg n (fifoInv_pubs cfg pubs (fifoInv_start Msg)) a

/-- C4: over the lifetime of the runtime, each `AgentId` has at most one
instance and its factory is invoked at most once, even when multiple
messages addressed to a not-yet-created agent arrive before the first is
processed: after any sequence of publishes and any number of scheduler
iterations, the factory-invocation log coincides with the instance
directory, the directory has no duplicates, and every `AgentId` occurs at
most once in each. -/
theorem at_most_one_instance_per_agent_id (Msg : Type) (cfg : RtConfig Msg)
    (pubs : List (Msg × TopicId)) (n : Nat) (a : AgentId) :
    (run cfg n (afterPublishes cfg pubs)).factoryLog =
        (run cfg n (afterPublishes cfg pubs)).instances ∧
      (run cfg n (afterPublishes cfg pubs)).instances.Nodup ∧
      (run cfg n (afterPublishes cfg pubs)).factoryLog.count a ≤ 1 ∧
      (run cfg n (afterPublishes cfg pubs)).instances.count a ≤ 1 := by
  unfold afterPublishes
  obtain ⟨h1, h2⟩ := dirInv_run cfg n (dirInv_pubs cfg pubs (dirInv_start Msg))
  refine ⟨h1, h2, ?_, ?_⟩
  · rw [h1]
    exact List.nodup_iff_count_le_one.mp h2 a
  · exact List.nodup_iff_count_le_one.mp h2 a

/-- C5: publishing to a topic whose type matches no registered subscription
resolves to the empty set, leaves the runtime state completely unchanged
(in particular it causes zero handler invocations), and is not an error —
`publish` is total and completes normally. -/
theorem resolve_unmatched_empty_publish_no_op (Msg : Type) (cfg : RtConfig Msg)
    (st : RtState Msg) (m : Msg) (t : TopicId)
    (h : ∀ s ∈ cfg.subs, s.topicType ≠ t.type) :
    resolve cfg.subs t = [] ∧ publish cfg st m t = st ∧
      (publish cfg st m t).invoked = st.invoked := by
  have hr : resolve cfg.subs t = [] := by
    unfold resolve
    rw [List.map_eq_nil_iff, List.filter_eq_nil_iff]
    intro s hs
    simpa using h s hs
  have hp : publish cfg st m t = st := by
    unfold publish
    rw [hr]
    rfl
  exact ⟨hr, hp, by rw [hp]⟩

theorem resolve_unmatched_empty_publish_no_op_witness :
    resolve [TypeSubscription.mk "ConceptExtractorAgent" "ConceptExtractorAgent"]
        (TopicId.mk "UnknownTopic" "default") = [] ∧
      publish
          { subs := [TypeSubscription.mk "ConceptExtractorAgent" "ConceptExtractorAgent"]
            handler := fun _ _ => Except.ok [] }
          (RtState.start String) "hello" (TopicId.mk "UnknownTopic" "default") =
        RtState.start String ∧
      (publish
          { subs := [TypeSubscription.mk "ConceptExtractorAgent" "ConceptExtractorAgent"]
            handler := fun _ _ => Except.ok [] }
          (RtState.start String) "hello" (TopicId.mk "UnknownTopic" "default")).invoked =
        (RtState.start String).invoked :=
  resolve_unmatched_empty_publish_no_op String
    { subs := [TypeSubscription.mk "ConceptExtractorAgent" "ConceptExtractorAgent"]
      handler := fun _ _ => Except.ok [] }
    (RtState.start String) "hello" (TopicId.mk "UnknownTopic" "default")
    (by decide)

/-- C6: under the default key-derivation rule, `resolve` pairs each matching
subscribed agent type with a derived agent key equal to the topic's source
string verbatim, and subscription matching is by exact string equality on
the topic type — an agent id is resolved for a topic iff the exact
`(topic.type, agent.type)` subscription is registered and the agent's key
is exactly the topic's source. -/
theorem resolve_exact_match_source_becomes_key (subs : List TypeSubscription)
    (t : TopicId) (a : AgentId) :
    a ∈ resolve subs t ↔
      (TypeSubscription.mk t.type a.type ∈ subs ∧ a.key = t.source) := by
  simp only [resolve, List.mem_map, List.mem_filter, beq_iff_eq]
  constructor
  · rintro ⟨s, ⟨hmem, hty⟩, rfl⟩
    cases s
    subst hty
    exact ⟨hmem, rfl⟩
  · rintro ⟨hmem, hk⟩
    refine ⟨TypeSubscription.mk t.type a.type, ⟨hmem, rfl⟩, ?_⟩
    cases a
    simp_all

/-- C8: registering an identical `(topicType, agentType)` subscription pair
a second time, or registering the same agent type twice, fails immediately
at registration time with a duplicate-registration error rather than being
silently merged: any state obtained by a successful registration rejects
the same registration again with the duplicate error. -/
theorem duplicate_registration_rejected (r : Registry) (s : TypeSubscription)
    (ty : String) (ts ts' : List String) :
    (∀ r', registerSubscription r s = Except.ok r' →
        registerSubscription r' s = Except.error "DuplicateSubscriptionError") ∧
    (∀ r', registerAgentType r ty ts = Except.ok r' →
        registerAgentType r' ty ts' = Except.error "DuplicateRegistrationError") := by
  constructor
  · intro r' hok
    unfold registerSubscription at hok ⊢
    split at hok
    · exact absurd hok (by simp)
    · cases hok
      simp
  · intro r' hok
    unfold registerAgentType at hok ⊢
    split at hok
    · exact absurd hok (by simp)
    · cases hok
      simp

set_option maxHeartbeats 4000000 in
/-- C1: publishing a single message with content `"desc"` to the topic
`(type="Stage1", source="default")` of the four-stage workflow and then
stopping when idle results in exactly four handler invocations, in the
order Stage1, Stage2, Stage3, User, where each stage's handler receives as
its input the output published by the previous stage; afterwards the
scheduler finds no ready agent (stop_when_idle returns). -/
theorem four_stage_workflow_end_to_end (g1 g2 g3 : String → String) :
    (stageRun g1 g2 g3).invoked =
      [(AgentId.mk "Stage1" "default", "desc"),
       (AgentId.mk "Stage2" "default", g1 (conceptExtractorPrompt "desc")),
       (AgentId.mk "Stage3" "default",
         g2 (writerPrompt (g1 (conceptExtractorPrompt "desc")))),
       (AgentId.mk "User" "default",
         g3 (formatProofPrompt
           (g2 (writerPrompt (g1 (conceptExtractorPrompt "desc"))))))] ∧
      step (stageCfg g1 g2 g3) (stageRun g1 g2 g3) = none :=
  ⟨rfl, rfl⟩

set_option maxHeartbeats 4000000 in
/-- C9: in the sequential workflow, every agent instance created during the
run has instance key equal to the source string of the initial publish
(`"default"`): each stage's handler publishes its output with `source` set
to its own `id.key`, so the key propagates unchanged from the first topic
through all four stages. -/
theorem instance_key_propagates_from_initial_source
    (g1 g2 g3 : String → String) (m : String) :
    (nbRun g1 g2 g3 m).instances =
        [AgentId.mk concept_extractor_topic_type "default",
         AgentId.mk writer_topic_type "default",
         AgentId.mk format_proof_topic_type "default",
         AgentId.mk user_topic_type "default"] ∧
      ∀ a ∈ (nbRun g1 g2 g3 m).instances, a.key = "default" := by
  have h : (nbRun g1 g2 g3 m).instances =
      [AgentId.mk concept_extractor_topic_type "default",
       AgentId.mk writer_topic_type "default",
       AgentId.mk format_proof_topic_type "default",
       AgentId.mk user_topic_type "default"] := rfl
  refine ⟨h, ?_⟩
  intro a ha
  rw [h] at ha
  simp only [List.mem_cons, List.not_mem_nil, or_false] at ha
  rcases ha with rfl | rfl | rfl | rfl <;> rfl

/-- C10: each of the three model-calling handlers asserts that the model
client's returned content is a string; whenever the client's result content
is not a string, the handler raises at that assertion (first three
conjuncts), and an envelope whose handler raises is recorded as failed and
produces no follow-up publish: the scheduler pops it, logs the invocation
and the failure, and leaves the enqueue log — hence every other mailbox —
unchanged (last conjunct). -/
theorem non_string_content_fails_envelope (c1 c2 c3 : String → LLMContent)
    (k m : String) :
    (c1 (conceptExtractorPrompt m) = LLMContent.other →
      (nbClientCfg c1 c2 c3).handler
          (AgentId.mk concept_extractor_topic_type k) m =
        Except.error "AssertionError") ∧
    (c2 (writerPrompt m) = LLMContent.other →
      (nbClientCfg c1 c2 c3).handler (AgentId.mk writer_topic_type k) m =
        Except.error "AssertionError") ∧
    (c3 (formatProofPrompt m) = LLMContent.other →
      (nbClientCfg c1 c2 c3).handler (AgentId.mk format_proof_topic_type k) m =
        Except.error "AssertionError") ∧
    (∀ (st : RtState String) (a : AgentId) (mm : String) (rest : List String)
        (e : String),
      st.instances.find? (fun b => !(st.mbox b).isEmpty) = some a →
      st.mbox a = mm :: rest →
      (nbClientCfg c1 c2 c3).handler a mm = Except.error e →
      step (nbClientCfg c1 c2 c3) st =
        some { st with mbox := fun b => if b = a then rest else st.mbox b
                       invoked := st.invoked ++ [(a, mm)]
                       failedLog := st.failedLog ++ [(a, mm)] }) := by
  refine ⟨?_, ?_, ?_, ?_⟩
  · intro h
    simp [nbClientCfg, pipelineConfig, pipelineHandler,
      concept_extractor_topic_type, writer_topic_type,
      format_proof_topic_type, user_topic_type, h]
  · intro h
    simp [nbClientCfg, pipelineConfig, pipelineHandler,
      concept_extractor_topic_type, writer_topic_type,
      format_proof_topic_type, user_topic_type, h]
  · intro h
    simp [nbClientCfg, pipelineConfig, pipelineHandler,
      concept_extractor_topic_type, writer_topic_type,
      format_proof_topic_type, user_topic_type, h]
  · intro st a mm rest e hfind hm hh
    simp only [step, hfind, hm, hh]

theorem logAt_cons_self {Msg : Type} (a : AgentId) (m : Msg)
    (l : List (AgentId × Msg)) : logAt a ((a, m) :: l) = m :: logAt a l := by
  simp [logAt, List.filter_cons]

theorem logAt_cons_other {Msg : Type} {a b : AgentId} (m : Msg)
    (l : List (AgentId × Msg)) (h : b ≠ a) :
    logAt b ((a, m) :: l) = logAt b l := by
  simp [logAt, List.filter_cons, Ne.symm h]

theorem logAt_eq_nil_of_not_mem {Msg : Type} {a : AgentId}
    {l : List (AgentId × Msg)} (h : a ∉ l.map Prod.fst) : logAt a l = [] := by
  induction l with
  | nil => rfl
  | cons p ps ih =>
    simp only [List.map_cons, List.mem_cons, not_or] at h
    have h2 := ih h.2
    cases p with
    | mk p1 p2 =>
      rw [logAt_cons_other p2 ps h.1]
      exact h2

theorem schedGood_startState (Msg : Type) :
    SchedGood (SchedState.startState Msg) := by
  constructor
  · simp [SchedState.startState]
  · intro a
    simp [SchedState.startState, logAt]

theorem schedGood_getOrCreateS {Msg : Type} {st : SchedState Msg}
    (a : AgentId) (h : SchedGood st) : SchedGood (getOrCreateS st a) := by
  unfold getOrCreateS
  split <;> exact h

theorem schedGood_enqueueS {Msg : Type} {st : SchedState Msg} (a : AgentId)
    (m : Msg) (h : SchedGood st) : SchedGood (enqueueS st a m) := by
  refine ⟨h.1, ?_⟩
  intro b
  have hb := h.2 b
  by_cases hba : b = a
  · subst hba
    simp only [enqueueS]
    rw [logAt_append, logAt_single_self, hb]
    simp [List.append_assoc]
  · simp only [enqueueS]
    rw [logAt_append, logAt_single_other m hba]
    simp [hba, hb]

theorem schedGood_publishS {Msg : Type} (cfg : RtConfig Msg)
    {st : SchedState Msg} (m : Msg) (t : TopicId) (h : SchedGood st) :
    SchedGood (publishS cfg st m t) := by
  unfold publishS
  induction resolve cfg.subs t generalizing st with
  | nil => exact h
  | cons a as ih => exact ih (schedGood_enqueueS a m (schedGood_getOrCreateS a h))

theorem schedGood_pubsList {Msg : Type} (cfg : RtConfig Msg)
    (pubs : List (Msg × TopicId)) {st : SchedState Msg} (h : SchedGood st) :
    SchedGood (pubs.foldl (fun s p => publishS cfg s p.1 p.2) st) := by
  induction pubs generalizing st with
  | nil => exact h
  | cons p ps ih => exact ih (schedGood_publishS cfg p.1 p.2 h)

theorem schedGood_applyResult {Msg : Type} (cfg : RtConfig Msg)
    {st : SchedState Msg} (a : AgentId) (m : Msg) (h : SchedGood st) :
    SchedGood (applyResult cfg st a m) := by
  unfold applyResult
  split
  · exact schedGood_pubsList cfg _ h
  · exact h

theorem schedGood_step {Msg : Type} (cfg : RtConfig Msg)
    {st st' : SchedState Msg} (hs : SchedStep cfg st st') (h : SchedGood st) :
    SchedGood st' := by
  obtain ⟨h1, h2⟩ := h
  cases hs with
  | start a m rest hm hfree =>
    constructor
    · simp only [List.map_append, List.map_cons, List.map_nil]
      rw [List.nodup_append]
      refine ⟨h1, List.nodup_singleton a, ?_⟩
      intro x hx
      simp only [List.mem_singleton]
      rintro rfl
      exact hfree hx
    · intro b
      have hb := h2 b
      by_cases hba : b = a
      · subst hba
        rw [hm, logAt_eq_nil_of_not_mem hfree] at hb
        dsimp only
        rw [logAt_append, logAt_single_self, logAt_eq_nil_of_not_mem hfree]
        simpa [List.append_assoc] using hb
      · dsimp only
        rw [logAt_append, logAt_single_other m hba]
        simpa [hba, List.append_assoc] using hb
  | finish pre post a m hin =>
    rw [hin] at h1
    have hmid : (a :: ((pre ++ post).map Prod.fst)).Nodup := by
      simpa [List.map_append, List.nodup_middle] using h1
    have hnotin : a ∉ (pre ++ post).map Prod.fst :=
      (List.nodup_cons.mp hmid).1
    have hnodup2 : ((pre ++ post).map Prod.fst).Nodup :=
      (List.nodup_cons.mp hmid).2
    have hnpre : a ∉ pre.map Prod.fst := by
      intro hx
      exact hnotin (by simp [List.map_append, hx])
    have hnpost : a ∉ post.map Prod.fst := by
      intro hx
      exact hnotin (by simp [List.map_append, hx])
    refine schedGood_applyResult cfg a m ⟨hnodup2, ?_⟩
    intro b
    have hb := h2 b
    rw [hin] at hb
    by_cases hba : b = a
    · subst hba
      rw [logAt_append, logAt_eq_nil_of_not_mem hnpre, logAt_cons_self,
        logAt_eq_nil_of_not_mem hnpost] at hb
      dsimp only
      rw [logAt_append, logAt_single_self, logAt_append,
        logAt_eq_nil_of_not_mem hnpre, logAt_eq_nil_of_not_mem hnpost]
      simpa [List.append_assoc] using hb
    · rw [logAt_append, logAt_cons_other m post hba] at hb
      dsimp only
      rw [logAt_append, logAt_single_other m hba, logAt_append]
      simpa [List.append_assoc] using hb

theorem schedGood_reach {Msg : Type} (cfg : RtConfig Msg)
    {s s' : SchedState Msg}
    (h : Relation.ReflTransGen (SchedStep cfg) s s') (hg : SchedGood s) :
    SchedGood s' := by
  induction h with
  | refl => exact hg
  | tail _ hstep ih => exact schedGood_step cfg hstep ih

/-- C2: `stop_when_idle` returns only once every mailbox of every known
agent instance is empty and no handler invocation is suspended awaiting
external completion (the `SchedIdle` predicate); in any reachable such
state, every envelope that was ever enqueued — in particular every
follow-up message published by a handler during the run — has been fully
processed: the completed-invocation history of every agent coincides with
its entire enqueue history. -/
theorem stop_when_idle_only_after_followups (Msg : Type) (cfg : RtConfig Msg)
    (pubs : List (Msg × TopicId)) (st : SchedState Msg)
    (hreach : Relation.ReflTransGen (SchedStep cfg) (afterPublishesS cfg pubs) st)
    (hidle : SchedIdle st) (a : AgentId) :
    logAt a st.completedLog = logAt a st.enqueued := by
  have hg : SchedGood st :=
    schedGood_reach cfg hreach
      (schedGood_pubsList cfg pubs (schedGood_startState Msg))
  have hb := hg.2 a
  rw [hidle.1 a, hidle.2] at hb
  simp only [logAt, List.filter_nil, List.map_nil, List.append_nil] at hb
  exact hb.symm

/-- C7: at every instant of a run, at most one handler invocation is in
flight per `AgentId`: in every state reachable by the cooperative scheduler
(which may freely interleave `start` and `finish` transitions of different
agents, servicing other agents' mailboxes while one handler is suspended),
no `AgentId` occurs more than once among the in-flight handler
invocations. -/
theorem at_most_one_inflight_per_agent_id (Msg : Type) (cfg : RtConfig Msg)
    (pubs : List (Msg × TopicId)) (st : SchedState Msg)
    (hreach : Relation.ReflTransGen (SchedStep cfg) (afterPublishesS cfg pubs) st)
    (a : AgentId) :
    (st.inflight.map Prod.fst).count a ≤ 1 := by
  have hg : SchedGood st :=
    schedGood_reach cfg hreach
      (schedGood_pubsList cfg pubs (schedGood_startState Msg))
  exact List.nodup_iff_count_le_one.mp hg.1 a

theorem stop_when_idle_only_after_followups_witness :
    SchedIdle demoSt4 ∧
      logAt (AgentId.mk "B" "s") demoSt4.completedLog =
        logAt (AgentId.mk "B" "s") demoSt4.enqueued := by
  have s1 : SchedStep demoCfg (afterPublishesS demoCfg demoPubs) demoSt1 :=
    SchedStep.start _ (AgentId.mk "A" "s") "m1" [] rfl (by decide)
  have s2 : SchedStep demoCfg demoSt1 demoSt2 :=
    SchedStep.finish _ [] [] (AgentId.mk "A" "s") "m1" rfl
  have s3 : SchedStep demoCfg demoSt2 demoSt3 :=
    SchedStep.start _ (AgentId.mk "B" "s") "m1" [] rfl (by decide)
  have s4 : SchedStep demoCfg demoSt3 demoSt4 :=
    SchedStep.finish _ [] [] (AgentId.mk "B" "s") "m1" rfl
  have hidle : SchedIdle demoSt4 := by
    constructor
    · intro a
      by_cases h1 : a = AgentId.mk "B" "s" <;>
        by_cases h2 : a = AgentId.mk "A" "s" <;> simp [demoSt4, h1, h2]
    · rfl
  refine ⟨hidle, ?_⟩
  exact stop_when_idle_only_after_followups String demoCfg demoPubs demoSt4
    ((((Relation.ReflTransGen.refl.tail s1).tail s2).tail s3).tail s4)
    hidle (AgentId.mk "B" "s")

theorem at_most_one_inflight_per_agent_id_witness :
    (demoSt1.inflight.map Prod.fst).count (AgentId.mk "A" "s") ≤ 1 := by
  have s1 : SchedStep demoCfg (afterPublishesS demoCfg demoPubs) demoSt1 :=
    SchedStep.start _ (AgentId.mk "A" "s") "m1" [] rfl (by decide)
  exact at_most_one_inflight_per_agent_id String demoCfg demoPubs demoSt1
    (Relation.ReflTransGen.refl.tail s1) (AgentId.mk "A" "s")

theorem non_string_content_fails_envelope_witness :
    (nbClientCfg (fun _ => LLMContent.other) (fun _ => LLMContent.other)
        (fun _ => LLMContent.other)).handler
        (AgentId.mk concept_extractor_topic_type "default") "desc" =
      Except.error "AssertionError" ∧
    (nbClientCfg (fun _ => LLMContent.other) (fun _ => LLMContent.other)
        (fun _ => LLMContent.other)).handler
        (AgentId.mk writer_topic_type "default") "desc" =
      Except.error "AssertionError" ∧
    (nbClientCfg (fun _ => LLMContent.other) (fun _ => LLMContent.other)
        (fun _ => LLMContent.other)).handler
        (AgentId.mk format_proof_topic_type "default") "desc" =
      Except.error "AssertionError" ∧
    (step (nbClientCfg (fun _ => LLMContent.other) (fun _ => LLMContent.other)
        (fun _ => LLMContent.other))
      { instances := [AgentId.mk "ConceptExtractorAgent" "default"]
        factoryLog := [AgentId.mk "ConceptExtractorAgent" "default"]
        mbox := fun b =>
          if b = AgentId.mk "ConceptExtractorAgent" "default" then ["desc"]
          else []
        invoked := []
        failedLog := []
        enqueued := [(AgentId.mk "ConceptExtractorAgent" "default", "desc")] }).isSome
      = true := by
  have h := non_string_content_fails_envelope (fun _ => LLMContent.other)
    (fun _ => LLMContent.other) (fun _ => LLMContent.other) "default" "desc"
  refine ⟨h.1 rfl, h.2.1 rfl, h.2.2.1 rfl, ?_⟩
  rw [h.2.2.2
    { instances := [AgentId.mk "ConceptExtractorAgent" "default"]
      factoryLog := [AgentId.mk "ConceptExtractorAgent" "default"]
      mbox := fun b =>
        if b = AgentId.mk "ConceptExtractorAgent" "default" then ["desc"]
        else []
      invoked := []
      failedLog := []
      enqueued := [(AgentId.mk "ConceptExtractorAgent" "default", "desc")] }
    (AgentId.mk "ConceptExtractorAgent" "default") "desc" [] "AssertionError"
    rfl rfl rfl]
  rfl

theorem duplicate_registration_rejected_witness :
    registerSubscription
        { agentTypes := [], subs := [TypeSubscription.mk "T" "A"] }
        (TypeSubscription.mk "T" "A") =
      Except.error "DuplicateSubscriptionError" ∧
    registerAgentType { agentTypes := ["A"], subs := [TypeSubscription.mk "T" "A"] }
        "A" ["T"] =
      Except.error "DuplicateRegistrationError" :=
  ⟨(duplicate_registration_rejected { agentTypes := [], subs := [] }
      (TypeSubscription.mk "T" "A") "A" ["T"] ["T"]).1
      { agentTypes := [], subs := [TypeSubscription.mk "T" "A"] } rfl,
   (duplicate_registration_rejected { agentTypes := [], subs := [] }
      (TypeSubscription.mk "T" "A") "A" ["T"] ["T"]).2
      { agentTypes := ["A"], subs := [TypeSubscription.mk "T" "A"] } rfl⟩
